import Mathlib

/-!
Verification of the Steam Deck Randomizer loader command stubs
(src/packages/loader/src-tauri/src/commands.rs).

The source file defines three pure Tauri command functions:
  fetch_games()            -> String                  = "[]"
  download_game(&str)      -> Result<String, String>  = Ok("downloaded")
  get_games_dir()          -> String                  = "./games"
Each body is a single hardcoded return with no branching, no state
access and no panicking operation.  The shallow embedding below
translates each function body directly; Rust's Result<String, String>
becomes Except String String.
-/

namespace SDR

/-- Embedding of fetch_games: returns the hardcoded empty-list string
(source line: String::from("[]")). -/
def fetch_games : String := "[]"

/-- Embedding of download_game: ignores its argument (the Rust binder is
the unused _game_date) and returns Ok(String::from("downloaded")). -/
def download_game (_game_date : String) : Except String String :=
  Except.ok "downloaded"

/-- Embedding of get_games_dir: returns the hardcoded relative path
(source line: String::from("./games")). -/
def get_games_dir : String := "./games"

/-- The three commands exported by commands.rs, as an inductive of calls
with their arguments. -/
inductive Command where
  | fetchGames : Command
  | downloadGame (game_date : String) : Command
  | getGamesDir : Command

/-- A command's return value: the two infallible commands return a plain
string, download_game returns a Result. -/
inductive Output where
  | str (s : String) : Output
  | res (r : Except String String) : Output

/-- Execute one command.  The Option layer models Rust panics and
divergence (none would mean the call does not return); every operation
in the source is a literal-string construction, which cannot panic, so
every branch is some. -/
def runCmd : Command → Option Output
  | Command.fetchGames => some (Output.str fetch_games)
  | Command.downloadGame d => some (Output.res (download_game d))
  | Command.getGamesDir => some (Output.str get_games_dir)

/-- Execute one command while threading an ambient program state of an
arbitrary type σ (the state a host application would carry across
command invocations).  The source functions read and write no state, so
the state passes through untouched. -/
def runCmdSt {σ : Type} (c : Command) (s : σ) : σ × Option Output :=
  (s, runCmd c)

/-- Execute a sequence of commands in order, threading the ambient state
left to right and collecting each call's output. -/
def runSeqSt {σ : Type} : List Command → σ → σ × List (Option Output)
  | [], s => (s, [])
  | c :: cs, s =>
    let p := runCmdSt c s
    let q := runSeqSt cs p.1
    (q.1, p.2 :: q.2)

/-- JSON values, for reading the string returned by fetch_games as JSON
(the repository contains no JSON code; this is a reference model of the
standard grammar).  Numbers are kept as their source lexeme. -/
inductive Json where
  | null : Json
  | bool (b : Bool) : Json
  | num (lexeme : List Char) : Json
  | str (s : List Char) : Json
  | arr (elems : List Json) : Json
  | obj (members : List (List Char × Json)) : Json

/-- Skip JSON insignificant whitespace (space, tab, newline, carriage
return). -/
def skipWs : List Char → List Char
  | c :: cs =>
    if c = ' ' ∨ c = '\t' ∨ c = '\n' ∨ c = '\r' then skipWs cs else c :: cs
  | [] => []

/-- Scan the remainder of a JSON string literal after the opening quote.
The Bool flag records that the previous character was a backslash, in
which case the next character is taken verbatim as part of the escape. -/
def scanStr : List Char → Bool → List Char → Option (List Char × List Char)
  | [], _, _ => none
  | c :: rest, true, acc => scanStr rest false (acc ++ [c])
  | c :: rest, false, acc =>
    if c = '"' then some (acc, rest)
    else if c = '\\' then scanStr rest true (acc ++ [c])
    else scanStr rest false (acc ++ [c])

/-- Characters that may occur in a JSON number lexeme. -/
def numChar (c : Char) : Bool :=
  c.isDigit || c = '-' || c = '+' || c = '.' || c = 'e' || c = 'E'

/-- Take the maximal leading run of number-lexeme characters. -/
def takeNum : List Char → List Char × List Char
  | [] => ([], [])
  | c :: rest =>
    if numChar c then
      let p := takeNum rest
      (c :: p.1, p.2)
    else ([], c :: rest)

mutual

/-- Parse one JSON value from the input, returning it with the unread
rest.  Fuel bounds the recursion depth; none means the input is not
well-formed JSON (or fuel ran out). -/
def parseVal : Nat → List Char → Option (Json × List Char)
  | 0, _ => none
  | Nat.succ fuel, cs =>
    match skipWs cs with
    | 'n' :: 'u' :: 'l' :: 'l' :: rest => some (Json.null, rest)
    | 't' :: 'r' :: 'u' :: 'e' :: rest => some (Json.bool true, rest)
    | 'f' :: 'a' :: 'l' :: 's' :: 'e' :: rest => some (Json.bool false, rest)
    | '"' :: rest =>
      match scanStr rest false [] with
      | some p => some (Json.str p.1, p.2)
      | none => none
    | '[' :: rest =>
      match skipWs rest with
      | ']' :: r => some (Json.arr [], r)
      | cs2 => parseArrItems fuel cs2 []
    | '{' :: rest =>
      match skipWs rest with
      | '}' :: r => some (Json.obj [], r)
      | cs2 => parseObjItems fuel cs2 []
    | c :: rest =>
      if numChar c ∧ ¬ (c = '+' ∨ c = '.' ∨ c = 'e' ∨ c = 'E') then
        let p := takeNum (c :: rest)
        some (Json.num p.1, p.2)
      else none
    | [] => none

/-- Parse the remaining elements of a non-empty JSON array, the
accumulator holding the elements already read. -/
def parseArrItems : Nat → List Char → List Json → Option (Json × List Char)
  | 0, _, _ => none
  | Nat.succ fuel, cs, acc =>
    match parseVal fuel cs with
    | none => none
    | some p =>
      match skipWs p.2 with
      | ',' :: r => parseArrItems fuel r (acc ++ [p.1])
      | ']' :: r => some (Json.arr (acc ++ [p.1]), r)
      | _ => none

/-- Parse the remaining members of a non-empty JSON object, the
accumulator holding the members already read. -/
def parseObjItems : Nat → List Char → List (List Char × Json) →
    Option (Json × List Char)
  | 0, _, _ => none
  | Nat.succ fuel, cs, acc =>
    match skipWs cs with
    | '"' :: rest =>
      match scanStr rest false [] with
      | none => none
      | some kp =>
        match skipWs kp.2 with
        | ':' :: r2 =>
          match parseVal fuel r2 with
          | none => none
          | some vp =>
            match skipWs vp.2 with
            | ',' :: r4 => parseObjItems fuel r4 (acc ++ [(kp.1, vp.1)])
            | '}' :: r4 => some (Json.obj (acc ++ [(kp.1, vp.1)]), r4)
            | _ => none
        | _ => none
    | _ => none

end

/-- Parse a whole string as a single JSON value: one value, possibly
surrounded by whitespace, with nothing after it. -/
def parseJson (s : String) : Option Json :=
  match parseVal (s.length + 1) s.data with
  | some p => if skipWs p.2 = [] then some p.1 else none
  | none => none

end SDR

namespace SDR

/-- Helper: the source functions touch no state, so running any command
sequence returns the initial state unchanged together with the pointwise
outputs of the commands. -/
theorem runSeqSt_eq {σ : Type} (l : List Command) (s : σ) :
    runSeqSt l s = (s, l.map runCmd) := by
  induction l generalizing s with
  | nil => rfl
  | cons c cs ih => simp [runSeqSt, runCmdSt, ih]

/-- C1: for every input string x (including the empty string),
download_game x returns Ok "downloaded". -/
theorem download_game_ok_downloaded (x : String) :
    download_game x = Except.ok "downloaded" := rfl

/-- C2: every call to fetch_games returns exactly the literal string
"[]". -/
theorem fetch_games_eq : fetch_games = "[]" := rfl

/-- C3: every call to get_games_dir returns exactly the literal string
"./games". -/
theorem get_games_dir_eq : get_games_dir = "./games" := rfl

/-- C4: download_game never returns the Err variant: for every input
string x the result is an Ok value. -/
theorem download_game_never_err (x : String) :
    (download_game x).isOk = true := rfl

/-- C5: the result of download_game is independent of its argument: two
runs on any two inputs x and y return equal results. -/
theorem download_game_indep_of_arg (x y : String) :
    download_game x = download_game y := rfl

/-- C6: no observable side effect: running any history of commands
followed by a call c leaves the ambient program state unchanged, and the
value returned by that last call is runCmd c regardless of the history
of earlier calls. -/
theorem commands_no_side_effect {σ : Type} (h : List Command) (s : σ)
    (c : Command) :
    (runSeqSt (h ++ [c]) s).1 = s ∧
      ((runSeqSt (h ++ [c]) s).2).getLast? = some (runCmd c) := by
  rw [runSeqSt_eq]
  exact ⟨rfl, by simp⟩

/-- C7: each command is deterministic: two invocations of the same
command c with the same argument, in any two execution contexts (any
histories, any ambient states, even of different state types), return
equal results. -/
theorem commands_deterministic {σ τ : Type} (h1 : List Command) (s1 : σ)
    (h2 : List Command) (s2 : τ) (c : Command) :
    ((runSeqSt (h1 ++ [c]) s1).2).getLast? =
      ((runSeqSt (h2 ++ [c]) s2).2).getLast? := by
  rw [runSeqSt_eq, runSeqSt_eq]
  simp

/-- C8: the string returned by get_games_dir is a relative path: its
character sequence does not begin with the root separator and in fact
begins with the explicit relative prefix "./". -/
theorem get_games_dir_relative :
    List.isPrefixOf "/".data get_games_dir.data = false ∧
      List.isPrefixOf "./".data get_games_dir.data = true := by
  exact ⟨by decide, by decide⟩

/-- C9: all three commands are total and panic-free: every call (for
every argument of download_game) returns a value; runCmd models a panic
or divergence as none, and no command produces it. -/
theorem commands_total (c : Command) : (runCmd c).isSome = true := by
  cases c <;> rfl

/-- C10: the string returned by fetch_games parses as a JSON array with
zero elements. -/
theorem fetch_games_json_empty_array :
    parseJson fetch_games = some (Json.arr []) := rfl

end SDR
